import Mathlib

/-!
Shallow embedding of `proto_sep` (`src/proto_sep/protostars.py`):
the Protostar / Group / Region / Catalog hierarchy, `Group._compute_separations`,
`Region.from_file`, `Catalog.from_files` and the flattened Catalog views.
Float table cells are modelled as `Option ℚ` (`none` = NaN); real-valued
derived quantities (square roots, angular separations) live in `Option ℝ`.
-/

namespace ProtoSep

/-- A floating-point cell of the input table: a finite value or NaN (`none`).
Finite values are represented by rationals, which every concrete table cell is. -/
abbrev FVal := Option ℚ

/-- A derived real-valued quantity (possibly NaN, propagated from NaN inputs). -/
abbrev RVal := Option ℝ

/-- Model of `np.isfinite` on a cell. -/
def FVal.isfinite (v : FVal) : Bool := v.isSome

/-- Sky location held by `SkyCoord(RA, DEC)`: the raw RA/DEC cells. -/
structure SkyLoc where
  ra : FVal
  dec : FVal

/-- The `Protostar` dataclass: one object's name, position and physical attributes. -/
structure Protostar where
  name : String
  location : SkyLoc
  inclination : FVal
  inclination_error : FVal
  rmaj : FVal
  tbol : FVal

/-! Arithmetic on cells, with numpy's NaN propagation where it matters. -/

/-- Model of `np.abs(x - y)` on cells: NaN inputs propagate to NaN. -/
def fAbsSub (a b : FVal) : FVal :=
  match a, b with
  | some x, some y => some |x - y|
  | _, _ => none

/-- Python comparison `a > b` on cells: any comparison with NaN is `False`. -/
def fGt (a b : FVal) : Bool :=
  match a, b with
  | some x, some y => decide (y < x)
  | _, _ => false

/-- Python `max([a, b])`: start with `a`, replace by `b` when `b > a`. -/
def pyMax2 (a b : FVal) : FVal := if fGt b a then b else a

/-- Model of `np.sqrt(a ** 2 + b ** 2)`: quadrature error propagation; NaN propagates. -/
noncomputable def quadErr (a b : FVal) : RVal :=
  match a, b with
  | some x, some y => some (Real.sqrt ((x : ℝ) ^ 2 + (y : ℝ) ^ 2))
  | _, _ => none

/-- Two-argument arctangent, the standard piecewise definition used to turn the
Vincenty numerator/denominator pair into an angle in (-π, π]. -/
noncomputable def atan2 (y x : ℝ) : ℝ :=
  if 0 < x then Real.arctan (y / x)
  else if x < 0 then
    (if 0 ≤ y then Real.arctan (y / x) + Real.pi else Real.arctan (y / x) - Real.pi)
  else (if 0 < y then Real.pi / 2 else if y < 0 then -(Real.pi / 2) else 0)

/-- Modelled from the spec: great-circle angular separation in radians between
two points given as (longitude, latitude) in radians, in the Vincenty
formulation used by sky-coordinate libraries (`SkyCoord.separation` itself is
external library code, not under `src/`). -/
noncomputable def vsep (lon1 lat1 lon2 lat2 : ℝ) : ℝ :=
  atan2
    (Real.sqrt ((Real.cos lat2 * Real.sin (lon2 - lon1)) ^ 2 +
      (Real.cos lat1 * Real.sin lat2 -
        Real.sin lat1 * Real.cos lat2 * Real.cos (lon2 - lon1)) ^ 2))
    (Real.sin lat1 * Real.sin lat2 +
      Real.cos lat1 * Real.cos lat2 * Real.cos (lon2 - lon1))

/-- Modelled from the spec: angular separation of two sky locations whose
RA/DEC are given in degrees, returned in radians (`.rad`). -/
noncomputable def angularSepRad (ra1 dec1 ra2 dec2 : ℝ) : ℝ :=
  vsep (ra1 * Real.pi / 180) (dec1 * Real.pi / 180)
    (ra2 * Real.pi / 180) (dec2 * Real.pi / 180)

/-- Model of `self.protostars[0].location.separation(ps.location).rad` on stored cells:
NaN coordinates give a NaN separation, finite ones the great-circle angle. -/
noncomputable def sepVal (a b : SkyLoc) : RVal :=
  match a.ra, a.dec, b.ra, b.dec with
  | some r1, some d1, some r2, some d2 =>
      some (angularSepRad (r1 : ℝ) (d1 : ℝ) (r2 : ℝ) (d2 : ℝ))
  | _, _, _, _ => none

/-! The Group layer. -/

/-- The method `Group._compute_separations`: iterates over `protostars[1:]`, appending one
comparison of each member against `protostars[0]` — but the `return` statement
sits inside the loop body, so the function returns right after the first
non-reference member; with fewer than two members the loop never runs and the
function falls through returning Python `None`, modelled as `none`. -/
noncomputable def computeSeparations :
    List Protostar → Option (List RVal × List FVal × List RVal × List FVal)
  | p0 :: p1 :: _ =>
      some ([sepVal p0.location p1.location],
        [fAbsSub p0.inclination p1.inclination],
        [quadErr p0.inclination_error p1.inclination_error],
        [pyMax2 p0.rmaj p1.rmaj])
  | _ => none

/-- The `Group` dataclass: member list plus the four derived arrays filled in by
`__post_init__`. -/
structure Group where
  protostars : List Protostar
  separation : List RVal
  inclination_difference : List FVal
  inclination_difference_error : List RVal
  rmaj : List FVal

/-- Construction of `Group(...)`: `__post_init__` unpacks the tuple returned by
`_compute_separations`; when that returns `None` (fewer than two members) the
unpacking raises a `TypeError`, modelled as `none`. -/
noncomputable def Group.make (ps : List Protostar) : Option Group :=
  match computeSeparations ps with
  | some (s, d, e, r) => some ⟨ps, s, d, e, r⟩
  | none => none

/-! The Region layer: `Region.from_file`. -/

/-- One table row, keyed by the `Name` index column, with the required value
columns of the input format (cells may be NaN). -/
structure Row where
  name : String
  RA : FVal
  DEC : FVal
  Inc : FVal
  Inc_err : FVal
  Rmaj : FVal
  Tbol0 : FVal

/-- Python `str.split(sep)` restricted to the single-character separator
`'_'`, written over the character list. -/
def splitChars : List Char → List Char → List (List Char)
  | [], acc => [acc.reverse]
  | c :: cs, acc =>
      if c = '_' then acc.reverse :: splitChars cs []
      else splitChars cs (c :: acc)

/-- Digit accumulation for `int(s)`: fails on any non-digit character. -/
def parseNatAux : List Char → Nat → Option Nat
  | [], acc => some acc
  | c :: cs, acc =>
      if c.isDigit then parseNatAux cs (acc * 10 + (c.toNat - '0'.toNat))
      else none

/-- Python `int(s)` for a non-empty all-digit string, with an optional sign. -/
def parseInt? : List Char → Option Int
  | [] => none
  | '-' :: rest => match rest with
      | [] => none
      | l => (parseNatAux l 0).map (fun n => -(n : Int))
  | l => (parseNatAux l 0).map (fun n => (n : Int))

/-- The unpacking `name, field, obj = k.split("_")` followed by `int(field)`, `int(obj)`:
fails (raises) unless the name has exactly three underscore-separated parts
whose last two parse as integers. -/
def parseName (s : String) : Except String (String × Int × Int) :=
  match splitChars s.data [] with
  | [r, f, o] =>
      match parseInt? f, parseInt? o with
      | some fi, some oi => .ok (⟨r⟩, fi, oi)
      | _, _ => .error "invalid literal for int"
  | _ => .error "not enough values to unpack"

/-- Left-to-right effectful map over a list, propagating the first error:
the evaluation order of a Python list comprehension or row loop. -/
def mapE (f : α → Except String β) : List α → Except String (List β)
  | [] => .ok []
  | a :: as =>
      match f a with
      | .error e => .error e
      | .ok b =>
          match mapE f as with
          | .error e => .error e
          | .ok bs => .ok (b :: bs)

/-- A parsed row: the row together with its `(region, field, object)` name parts. -/
abbrev PRow := Row × (String × Int × Int)

/-- The first loop of `Region.from_file`: parse every row name, propagating
any parse failure to the caller. -/
def parseTable (tbl : List Row) : Except String (List PRow) :=
  mapE (fun r => (parseName r.name).map (fun t => (r, t))) tbl

/-- The integer field identifier of a parsed row. -/
def rowField (x : PRow) : Int := x.2.2.1

/-- Insert into a sorted duplicate-free list of field identifiers. -/
def insertUnique (x : Int) : List Int → List Int
  | [] => [x]
  | y :: ys =>
      if x < y then x :: y :: ys
      else if x = y then y :: ys
      else y :: insertUnique x ys

/-- Model of `np.unique(fields)`: the distinct field identifiers in ascending order. -/
def uniqueSorted (l : List Int) : List Int := l.foldr insertUnique []

/-- The rows of the field partition `fields == f`, in table order. -/
def partRows (parsed : List PRow) (f : Int) : List PRow :=
  parsed.filter (fun x => rowField x == f)

/-- The second `for f in np.unique(fields)` loop: keep each field partition as
a candidate only when it has more than one row. -/
def buildGroupRows (parsed : List PRow) : List (List Row) :=
  (uniqueSorted (parsed.map rowField)).filterMap fun f =>
    let part := (partRows parsed f).map (·.1)
    if 1 < part.length then some part else none

/-- One protostar from one row: `SkyCoord(RA, DEC)` plus the physical columns
(the DEC cell is stored unchecked). -/
def mkProtostar (r : Row) : Protostar :=
  { name := r.name, location := ⟨r.RA, r.DEC⟩, inclination := r.Inc,
    inclination_error := r.Inc_err, rmaj := r.Rmaj, tbol := r.Tbol0 }

/-- The third loop of `Region.from_file`: within each candidate partition keep
the rows with finite RA (`np.isfinite(data.loc[name].RA)`), and build a Group
only when more than one row survives; otherwise a warning is logged and the
candidate is dropped. -/
noncomputable def buildGroups (parts : List (List Row)) : List Group :=
  parts.filterMap fun part =>
    let tmp := (part.filter (fun r => r.RA.isfinite)).map mkProtostar
    if 1 < tmp.length then Group.make tmp else none

/-- The `Region` dataclass. -/
structure Region where
  groups : List Group

/-- The classmethod `Region.from_file`: parse all row names (propagating failures), partition
by field identifier, filter and build the groups. -/
noncomputable def Region.fromFile (tbl : List Row) : Except String Region :=
  match parseTable tbl with
  | .error e => .error e
  | .ok parsed => .ok ⟨buildGroups (buildGroupRows parsed)⟩

/-- The total contribution of field partition `f` to the groups of a Region:
the composition of the candidate check (more than one row) with the
finite-RA filter and Group construction. -/
noncomputable def contribution (parsed : List PRow) (f : Int) : Option Group :=
  (if 1 < ((partRows parsed f).map (·.1)).length then
      some ((partRows parsed f).map (·.1))
    else none).bind fun part =>
      let tmp := (part.filter (fun r => r.RA.isfinite)).map mkProtostar
      if 1 < tmp.length then Group.make tmp else none

/-! The Catalog layer. -/

/-- The `Catalog` dataclass. -/
structure Catalog where
  regions : List Region

/-- The classmethod `Catalog.from_files`: one Region per file in argument order; any per-file
failure propagates and no catalog is built. -/
noncomputable def Catalog.fromFiles (tbls : List (List Row)) : Except String Catalog :=
  match mapE Region.fromFile tbls with
  | .error e => .error e
  | .ok rs => .ok ⟨rs⟩

/-- The method `Catalog._walk_regions_and_groups("separation")`: nested loops extending a
list with each group's separation array, region order then group order. -/
def Catalog.separation (c : Catalog) : List RVal :=
  c.regions.foldl (fun acc r => r.groups.foldl (fun a g => a ++ g.separation) acc) []

/-- The group-order concatenation of one Region's separation arrays. -/
def Region.sepConcat (r : Region) : List RVal :=
  r.groups.foldl (fun a g => a ++ g.separation) []

/-- A Python value as it comes out of `asdict(protostar)[variable]`: either a
bare scalar cell or an array of cells. -/
inductive PyVal where
  | scalar : FVal → PyVal
  | arr : List FVal → PyVal

/-- Python `output.extend(v)`: appends the elements when `v` is an array, but
a bare float is not iterable, so extending with a scalar raises a
`TypeError`, modelled as `none`. -/
def extendF (acc : List FVal) : PyVal → Option (List FVal)
  | .scalar _ => none
  | .arr l => some (acc ++ l)

/-- The `output.extend(...)` loop over a list of field values. -/
def extendAllF (acc : List FVal) : List PyVal → Option (List FVal)
  | [] => some acc
  | v :: vs =>
      match extendF acc v with
      | none => none
      | some acc2 => extendAllF acc2 vs

/-- All protostars of the catalog in region-then-group-then-protostar order. -/
def Catalog.protostarsOf (c : Catalog) : List Protostar :=
  c.regions.foldl (fun a r => r.groups.foldl (fun a2 g => a2 ++ g.protostars) a) []

/-- The method `Catalog._walk_protostars`: loops over every protostar and extends the
output with `asdict(protostar)[variable]` — a scalar field value. -/
def Catalog.walkProtostars (c : Catalog) (sel : Protostar → FVal) : Option (List FVal) :=
  extendAllF [] ((c.protostarsOf).map (fun p => PyVal.scalar (sel p)))

/-- The property `Catalog.all_rmaj`: the per-protostar walk on the scalar `rmaj` field. -/
def Catalog.all_rmaj (c : Catalog) : Option (List FVal) :=
  c.walkProtostars Protostar.rmaj

/-- The property `Catalog.all_tbol`: the per-protostar walk on the scalar `tbol` field. -/
def Catalog.all_tbol (c : Catalog) : Option (List FVal) :=
  c.walkProtostars Protostar.tbol

/-! Concrete inputs used by witnesses and by the evaluations at failing inputs. -/

/-- Shorthand row constructor for concrete tables. -/
def rowT (nm : String) (ra d i ie rm tb : FVal) : Row := ⟨nm, ra, d, i, ie, rm, tb⟩

/-- Sample protostar, as built from row `A_1_1` of the §8 scenario table. -/
def pA : Protostar :=
  ⟨"A_1_1", ⟨some 10, some 20⟩, some 5, some 1, some 2, some 100⟩

/-- Sample protostar, as built from row `A_1_2` of the §8 scenario table. -/
def pB : Protostar :=
  ⟨"A_1_2", ⟨some 10, some 20⟩, some 8, some 2, some 3, some 90⟩

/-- A third sample protostar, to form a three-member group. -/
def pC : Protostar :=
  ⟨"A_1_3", ⟨some 11, some 21⟩, some 4, some 1, some 1, some 80⟩

/-- A three-member group input. -/
def psC1 : List Protostar := [pA, pB, pC]

/-- A concrete table: field 1 has two finite rows, field 2 a single row. -/
def tblT : List Row :=
  [rowT "A_1_1" (some 10) (some 20) (some 5) (some 1) (some 2) (some 100),
   rowT "A_1_2" (some 10) (some 20) (some 8) (some 2) (some 3) (some 90),
   rowT "A_2_1" (some 11) (some 21) (some 4) (some 1) (some 1) (some 80)]

/-- A second concrete table with a different field, for two-file catalogs. -/
def tblU : List Row :=
  [rowT "B_3_1" (some 30) (some 40) (some 6) (some 1) (some 5) (some 70),
   rowT "B_3_2" (some 31) (some 41) (some 7) (some 2) (some 4) (some 60)]

/-- A table whose second row has finite RA but NaN DEC. -/
def tblC7 : List Row :=
  [rowT "B_1_1" (some 10) (some 20) (some 5) (some 1) (some 2) (some 100),
   rowT "B_1_2" (some 11) none (some 8) (some 2) (some 3) (some 90)]

end ProtoSep

namespace ProtoSep

/-! Helper lemmas. -/

/-- Shape of a successful Group construction: at least two members, and the
four derived arrays are the singleton comparisons of member 1 against the
reference member 0 (the early return fires after the first iteration). -/
theorem make_shape (ps : List Protostar) (g : Group) (h : Group.make ps = some g) :
    ∃ p0 p1 rest, ps = p0 :: p1 :: rest ∧
      g = ⟨ps, [sepVal p0.location p1.location],
        [fAbsSub p0.inclination p1.inclination],
        [quadErr p0.inclination_error p1.inclination_error],
        [pyMax2 p0.rmaj p1.rmaj]⟩ := by
  match ps with
  | [] => exact absurd h (by simp [Group.make, computeSeparations])
  | [p] => exact absurd h (by simp [Group.make, computeSeparations])
  | p0 :: p1 :: rest =>
      refine ⟨p0, p1, rest, rfl, ?_⟩
      have h' : some (⟨p0 :: p1 :: rest, [sepVal p0.location p1.location],
          [fAbsSub p0.inclination p1.inclination],
          [quadErr p0.inclination_error p1.inclination_error],
          [pyMax2 p0.rmaj p1.rmaj]⟩ : Group) = some g := h
      exact (Option.some.inj h').symm

/-- A successfully constructed Group stores exactly the input member list. -/
theorem make_protostars (ps : List Protostar) (g : Group)
    (h : Group.make ps = some g) : g.protostars = ps := by
  obtain ⟨p0, p1, rest, hps, hg⟩ := make_shape ps g h
  subst hg; rw [hps]

/-- Python `max([a, b])` on two finite cells is the numeric maximum. -/
theorem pyMax2_some (a b : ℚ) : pyMax2 (some a) (some b) = some (max a b) := by
  simp only [pyMax2, fGt]
  by_cases h : a < b
  · simp [h, max_eq_right h.le]
  · simp [h, max_eq_left (not_lt.mp h)]

/-- Folding list extension from an arbitrary accumulator prepends it. -/
theorem foldl_extend (f : α → List β) (l : List α) (acc : List β) :
    l.foldl (fun a x => a ++ f x) acc = acc ++ l.foldl (fun a x => a ++ f x) [] := by
  induction l generalizing acc with
  | nil => simp
  | cons x xs ih =>
      simp only [List.foldl_cons, List.nil_append]
      rw [ih (acc ++ f x), ih (f x), List.append_assoc]

/-- The two filterMap loops of `from_file` compose into the per-field
contribution map. -/
theorem buildGroups_eq (parsed : List PRow) :
    buildGroups (buildGroupRows parsed) =
      (uniqueSorted (parsed.map rowField)).filterMap (contribution parsed) := by
  unfold buildGroups buildGroupRows contribution
  rw [List.filterMap_filterMap]

/-- The map `mapE` succeeds exactly when every element maps successfully. -/
theorem mapE_ok_iff (f : α → Except String β) (l : List α) :
    (∃ bs, mapE f l = .ok bs) ↔ ∀ a ∈ l, ∃ b, f a = .ok b := by
  induction l with
  | nil => simp [mapE]
  | cons x xs ih =>
      constructor
      · rintro ⟨bs, hbs⟩ a ha
        unfold mapE at hbs
        cases hfx : f x with
        | error e => rw [hfx] at hbs; cases hbs
        | ok b =>
            rw [hfx] at hbs
            cases hm : mapE f xs with
            | error e => rw [hm] at hbs; cases hbs
            | ok bs2 =>
                rcases List.mem_cons.mp ha with h | h
                · subst h; exact ⟨b, hfx⟩
                · exact (ih.mp ⟨bs2, hm⟩) a h
      · intro h
        obtain ⟨b, hb⟩ := h x (List.mem_cons_self x xs)
        obtain ⟨bs, hbs⟩ := ih.mpr (fun a ha => h a (List.mem_cons_of_mem x ha))
        exact ⟨b :: bs, by unfold mapE; rw [hb, hbs]⟩

/-! Claim theorems. -/

/-- C10: constructing a Group from a sequence containing exactly one Protostar
raises an error (`_compute_separations` never enters its loop, returns `None`,
and `__post_init__`'s tuple unpacking fails), rather than producing four empty
derived arrays. -/
theorem singleton_group_construction_fails (p : Protostar) :
    Group.make [p] = none := rfl

/-- C1: evaluation at the failing input — for a Group built from N = 3
protostars the four derived arrays all have length 1, not N − 1 = 2: the
`return` inside the member loop fires after the first comparison. -/
theorem group_of_three_yields_length_one_arrays :
    psC1.length = 3 ∧
    (Group.make psC1).map (fun g =>
        (g.separation.length, g.inclination_difference.length,
          g.inclination_difference_error.length, g.rmaj.length)) =
      some (1, 1, 1, 1) :=
  ⟨rfl, rfl⟩

/-- C2: whenever a Group is successfully constructed, its four derived arrays
all have equal length; in the pure embedding every later operation is
read-only, so the arrays are never mutated after construction. -/
theorem group_derived_arrays_equal_length (ps : List Protostar) (g : Group)
    (hg : Group.make ps = some g) :
    g.separation.length = g.inclination_difference.length ∧
    g.inclination_difference.length = g.inclination_difference_error.length ∧
    g.inclination_difference_error.length = g.rmaj.length := by
  obtain ⟨p0, p1, rest, hps, hgeq⟩ := make_shape ps g hg
  subst hgeq
  exact ⟨rfl, rfl, rfl⟩

/-- Witness for C2 at a concrete two-member group. -/
theorem group_derived_arrays_equal_length_witness :
    ∃ g, Group.make [pA, pB] = some g ∧
      (g.separation.length = g.inclination_difference.length ∧
       g.inclination_difference.length = g.inclination_difference_error.length ∧
       g.inclination_difference_error.length = g.rmaj.length) :=
  ⟨_, rfl, group_derived_arrays_equal_length [pA, pB] _ rfl⟩

/-- C6: every valid index of a constructed Group's derived rmaj array holds
the maximum of the reference member's rmaj and member i+1's rmaj (finite
values; the array's only valid index is 0, by the early return). -/
theorem rmaj_entry_is_max (ps : List Protostar) (g : Group) (i : Nat)
    (p0 pk : Protostar) (a b : ℚ)
    (hg : Group.make ps = some g) (hi : i < g.rmaj.length)
    (h0 : ps[0]? = some p0) (hk : ps[i + 1]? = some pk)
    (ha : p0.rmaj = some a) (hb : pk.rmaj = some b) :
    g.rmaj[i]? = some (some (max a b)) := by
  obtain ⟨q0, q1, rest, hps, hgeq⟩ := make_shape ps g hg
  subst hgeq
  subst hps
  have hi0 : i = 0 := Nat.lt_one_iff.mp hi
  subst hi0
  have h0' : q0 = p0 := by simpa using h0
  have hk' : q1 = pk := by simpa using hk
  have ha' : q0.rmaj = some a := by rw [h0']; exact ha
  have hb' : q1.rmaj = some b := by rw [hk']; exact hb
  show some (pyMax2 q0.rmaj q1.rmaj) = some (some (max a b))
  rw [ha', hb', pyMax2_some]

/-- Witness for C6: for the §8 scenario pair the stored rmaj comparison is
max 2 3 = 3. -/
theorem rmaj_entry_is_max_witness :
    ∃ g, Group.make [pA, pB] = some g ∧
      g.rmaj[0]? = some (some (max (2 : ℚ) 3)) :=
  ⟨_, rfl, rmaj_entry_is_max [pA, pB] _ 0 pA pB 2 3 rfl Nat.one_pos rfl rfl rfl rfl⟩

/-- C3: evaluation at the failing input — on a concrete catalog holding two
protostars, accessing `all_rmaj` or `all_tbol` fails (`list.extend` is applied
to the scalar `rmaj`/`tbol` field of each protostar, which is not iterable, so
the walk raises `TypeError`); the access does not return one entry per
protostar as claimed. -/
theorem all_rmaj_access_fails_on_concrete_catalog :
    ∃ c, Catalog.fromFiles [tblT] = .ok c ∧ c.protostarsOf.length = 2 ∧
      c.all_rmaj = none ∧ c.all_tbol = none :=
  ⟨_, rfl, rfl, rfl, rfl⟩

/-- C4: a field partition with exactly one row, or exactly one finite-RA row
after NaN filtering, contributes no Group: its candidate check (more than one
row) or its post-filter check (more than one valid member) fails, and the
groups of the parsed Region are exactly the per-field contributions. -/
theorem single_row_partition_never_yields_group (tbl : List Row)
    (parsed : List PRow) (reg : Region) (f : Int)
    (hp : parseTable tbl = .ok parsed)
    (hr : Region.fromFile tbl = .ok reg)
    (h : (partRows parsed f).length = 1 ∨
      (((partRows parsed f).map (·.1)).filter (fun r => r.RA.isfinite)).length = 1) :
    contribution parsed f = none ∧
    reg.groups = (uniqueSorted (parsed.map rowField)).filterMap (contribution parsed) := by
  constructor
  · unfold contribution
    by_cases hlen : 1 < ((partRows parsed f).map (·.1)).length
    · rw [if_pos hlen]
      rcases h with h1 | h1
      · rw [List.length_map] at hlen
        omega
      · simp only [Option.some_bind]
        rw [if_neg]
        rw [List.length_map, h1]
        omega
    · rw [if_neg hlen]
      rfl
  · unfold Region.fromFile at hr
    rw [hp] at hr
    injection hr with hr
    rw [← hr]
    exact buildGroups_eq parsed

/-- Witness for C4: in the concrete table the partition of field 2 has exactly
one row and yields no group. -/
theorem single_row_partition_never_yields_group_witness :
    ∃ parsed reg, parseTable tblT = .ok parsed ∧ Region.fromFile tblT = .ok reg ∧
      (partRows parsed 2).length = 1 ∧ contribution parsed 2 = none ∧
      reg.groups = (uniqueSorted (parsed.map rowField)).filterMap (contribution parsed) := by
  refine ⟨_, _, rfl, rfl, rfl, ?_, ?_⟩
  · exact (single_row_partition_never_yields_group tblT _ _ 2 rfl rfl (Or.inl rfl)).1
  · exact (single_row_partition_never_yields_group tblT _ _ 2 rfl rfl (Or.inl rfl)).2

/-- C5: the flattened catalog separation view for two files is the
concatenation of the per-file Region separations, in file order. -/
theorem catalog_separation_respects_file_order (t1 t2 : List Row)
    (r1 r2 : Region) (c : Catalog)
    (h1 : Region.fromFile t1 = .ok r1) (h2 : Region.fromFile t2 = .ok r2)
    (hc : Catalog.fromFiles [t1, t2] = .ok c) :
    c.separation = r1.sepConcat ++ r2.sepConcat := by
  have hc' : c = ⟨[r1, r2]⟩ := by
    unfold Catalog.fromFiles mapE at hc
    rw [h1] at hc
    simp only at hc
    unfold mapE at hc
    rw [h2] at hc
    simp only at hc
    injection hc with hc
    exact hc.symm
  subst hc'
  unfold Catalog.separation
  simp only [List.foldl_cons, List.foldl_nil]
  exact foldl_extend Group.separation r2.groups r1.sepConcat

/-- Witness for C5 on two concrete tables. -/
theorem catalog_separation_respects_file_order_witness :
    ∃ r1 r2 c, Region.fromFile tblT = .ok r1 ∧ Region.fromFile tblU = .ok r2 ∧
      Catalog.fromFiles [tblT, tblU] = .ok c ∧
      c.separation = r1.sepConcat ++ r2.sepConcat :=
  ⟨_, _, _, rfl, rfl, rfl,
    catalog_separation_respects_file_order tblT tblU _ _ _ rfl rfl rfl⟩

/-- C7 (amended): every Protostar in every Group of a parsed Region has finite
right ascension — the `from_file` filter checks `np.isfinite` on RA only, so
declination is not constrained. -/
theorem region_protostars_have_finite_ra (tbl : List Row) (reg : Region)
    (hr : Region.fromFile tbl = .ok reg) :
    ∀ g ∈ reg.groups, ∀ p ∈ g.protostars, p.location.ra.isSome = true := by
  intro g hg p hp
  unfold Region.fromFile at hr
  cases hpt : parseTable tbl with
  | error e => rw [hpt] at hr; cases hr
  | ok parsed =>
      rw [hpt] at hr
      injection hr with hr
      rw [← hr] at hg
      simp only [buildGroups, List.mem_filterMap] at hg
      obtain ⟨part, hpart, hsome⟩ := hg
      by_cases hlen :
          1 < ((part.filter (fun r => r.RA.isfinite)).map mkProtostar).length
      · rw [if_pos hlen] at hsome
        have hps := make_protostars _ _ hsome
        rw [hps] at hp
        obtain ⟨r, hrmem, hrp⟩ := List.mem_map.mp hp
        have hfin := (List.mem_filter.mp hrmem).2
        rw [← hrp]
        exact hfin
      · rw [if_neg hlen] at hsome
        cases hsome

/-- Witness for C7's amended statement on a concrete table. -/
theorem region_protostars_have_finite_ra_witness :
    ∃ reg, Region.fromFile tblT = .ok reg ∧
      ∀ g ∈ reg.groups, ∀ p ∈ g.protostars, p.location.ra.isSome = true :=
  ⟨_, rfl, region_protostars_have_finite_ra tblT _ rfl⟩

/-- C7 counterexample: on a table whose second row has finite RA but NaN DEC,
`from_file` keeps that row — the resulting Region has one group of two
protostars whose DEC-finiteness flags are `[true, false]`, so not every kept
protostar has finite declination. -/
theorem region_keeps_protostar_with_nan_dec :
    (Region.fromFile tblC7).map
        (fun reg => reg.groups.map
          (fun g => g.protostars.map (fun p => p.location.dec.isSome))) =
      .ok [[true, false]] := rfl

/-- C9: building a catalog succeeds exactly when every input table parses; a
failing table propagates its error and no partial Catalog is constructed. -/
theorem fromFiles_all_or_nothing (tbls : List (List Row)) :
    (∃ c, Catalog.fromFiles tbls = .ok c) ↔
      ∀ tbl ∈ tbls, ∃ r, Region.fromFile tbl = .ok r := by
  rw [← mapE_ok_iff Region.fromFile tbls]
  constructor
  · rintro ⟨c, hc⟩
    unfold Catalog.fromFiles at hc
    cases hm : mapE Region.fromFile tbls with
    | error e => rw [hm] at hc; cases hc
    | ok rs => exact ⟨rs, rfl⟩
  · rintro ⟨rs, hrs⟩
    exact ⟨⟨rs⟩, by unfold Catalog.fromFiles; rw [hrs]⟩

/-- The Vincenty angular separation is symmetric in its two points. -/
theorem vsep_comm (lon1 lat1 lon2 lat2 : ℝ) :
    vsep lon1 lat1 lon2 lat2 = vsep lon2 lat2 lon1 lat1 := by
  unfold vsep
  have hc : Real.cos (lon1 - lon2) = Real.cos (lon2 - lon1) := by
    rw [← neg_sub lon2 lon1, Real.cos_neg]
  have hs : Real.sin (lon1 - lon2) = -Real.sin (lon2 - lon1) := by
    rw [← neg_sub lon2 lon1, Real.sin_neg]
  rw [hc, hs]
  have hA := Real.sin_sq_add_cos_sq lat1
  have hB := Real.sin_sq_add_cos_sq lat2
  have hC := Real.sin_sq_add_cos_sq (lon2 - lon1)
  congr 1
  · congr 1
    linear_combination (Real.cos lat2 ^ 2 - Real.cos lat1 ^ 2) * hC +
      (Real.cos (lon2 - lon1) ^ 2 - 1) *
        (Real.cos lat2 ^ 2 * hA - Real.cos lat1 ^ 2 * hB)
  · ring

/-- The Vincenty angular separation of a point with itself is zero. -/
theorem vsep_self (lon lat : ℝ) : vsep lon lat lon lat = 0 := by
  unfold vsep
  rw [sub_self, Real.sin_zero, Real.cos_zero]
  have h1 : (Real.cos lat * 0) ^ 2 +
      (Real.cos lat * Real.sin lat - Real.sin lat * Real.cos lat * 1) ^ 2 = 0 := by
    ring
  rw [h1, Real.sqrt_zero]
  have h2 : Real.sin lat * Real.sin lat + Real.cos lat * Real.cos lat * 1 = 1 := by
    linear_combination Real.sin_sq_add_cos_sq lat
  rw [h2]
  unfold atan2
  rw [if_pos one_pos, div_one, Real.arctan_zero]

/-- C8: the angular separation between two sky locations is symmetric under
swapping the two points, and is zero when the two locations coincide. -/
theorem separation_symm_and_zero_on_equal :
    (∀ ra1 dec1 ra2 dec2 : ℝ,
        angularSepRad ra1 dec1 ra2 dec2 = angularSepRad ra2 dec2 ra1 dec1) ∧
    (∀ ra dec : ℝ, angularSepRad ra dec ra dec = 0) :=
  ⟨fun ra1 dec1 ra2 dec2 =>
      vsep_comm (ra1 * Real.pi / 180) (dec1 * Real.pi / 180)
        (ra2 * Real.pi / 180) (dec2 * Real.pi / 180),
    fun ra dec => vsep_self (ra * Real.pi / 180) (dec * Real.pi / 180)⟩

end ProtoSep
